import Mathlib

/-!
# Travel planner REST backend: a shallow embedding of `server/index.js`

The embedding follows `src/server/index.js` and the two schemas under
`src/server/models/`.  Every route handler is an `async` function whose body is one
`try` block followed by a `catch` that answers 500.  A handler is modelled as a
computation over a per-request context (the document store and the list of responses
already sent) that may throw; a store write made before a throw stays in the store.

The calls into the object-document mapper (`create`, `find`, `findById`,
`findByIdAndUpdate`, `findByIdAndDelete`, `populate`) are modelled by their effect on
three lists of documents, together with the casts and validators that the schemas of
`Trip.model.js` and `TripMember.model.js` switch on.  Every awaited store call can also
fail for a reason of its own (a lost connection, a time-out): a table of faults says
which calls throw.  Identifiers are unique within a collection and a generated
identifier is new.  Requests are served one at a time.

What is left out of the documents: the `createdAt` / `updatedAt` timestamps, the
generated sub-identifier of an embedded activity, and console output.
-/

namespace TravelPlanner

/-! ## Values and documents -/

/-- JavaScript values that a JSON body or a query string can put in a field; `undefined`
stands for a field that is missing.  Numbers are the rationals. -/
inductive JsVal where
  | undefined
  | null
  | bool (b : Bool)
  | num (q : ℚ)
  | str (s : String)
  | arr (items : List JsVal)
  | obj (fields : List (String × JsVal))

/-- Errors that can be thrown inside a handler body. -/
inductive Err where
  | typeError
  | castError
  | validationError
  | duplicateKey
  | storeError
  | jwtError
  | headersSent
  deriving DecidableEq, Repr

/-- Identifiers generated by the store (`_id`); a 24 digit hexadecimal string on the wire. -/
abbrev ObjectId := Nat

/-- Embedded activity of a trip (`tripSchema.activities`).  Update operators are cast but
not validated, so a stored activity may lack any of its paths. -/
structure Activity where
  title : Option String
  date : Option Int
  time : Option String
  description : Option String
  type : Option String
  deriving DecidableEq, Repr

/-- Trip document (`tripSchema`). -/
structure Trip where
  _id : ObjectId
  title : String
  destination : String
  startDate : Int
  endDate : Int
  activities : List Activity
  deriving DecidableEq, Repr

/-- Values of `role` allowed by `tripMemberSchema`. -/
inductive Role where
  | owner
  | editor
  | viewer
  deriving DecidableEq, Repr

/-- Values of `status` allowed by `tripMemberSchema`. -/
inductive Status where
  | pending
  | accepted
  | rejected
  deriving DecidableEq, Repr

/-- Invitation document (`tripMemberSchema`). -/
structure TripMember where
  _id : ObjectId
  tripId : ObjectId
  userId : ObjectId
  role : Role
  invitedEmail : String
  status : Status
  deriving DecidableEq, Repr

/-- Modelled from the spec: the User document of `models/User.model.js` (identifier,
unique username, unique email, password stored as a one-way hash). -/
structure User where
  _id : ObjectId
  username : String
  email : String
  password : String
  deriving DecidableEq, Repr

/-- The three collections of the document store. -/
structure Store where
  trips : List Trip
  users : List User
  members : List TripMember
  deriving DecidableEq, Repr

/-- The store before any request. -/
def Store.empty : Store := ⟨[], [], []⟩

/-- What the process takes from its surroundings: the conversions of the JavaScript
runtime (date parsing, lower casing, printing of numbers), the signing secret read from
the process environment, the token signer, the hashing routine owned by the User entity,
and the reading the store gives to an object used as a filter value (a document of
query operators: either a cast error or a test on the stored string). -/
structure Env where
  parseDate : String → Option Int
  lowerCase : String → String
  numberToString : ℚ → String
  jwtSecret : Option String
  jwtSign : ObjectId → String → String
  hashPassword : String → String
  verifyPassword : String → String → Bool
  operatorFilter : List (String × JsVal) → Except Err (String → Bool)

/-! ## Responses -/

/-- Public projection of a user returned by signup and login. -/
structure PublicUser where
  id : ObjectId
  username : String
  email : String
  deriving DecidableEq, Repr

/-- Trip as joined into an invitation by `populate` with a field selection; a path that
was not selected is `none`. -/
structure TripRef where
  _id : ObjectId
  title : String
  destination : String
  startDate : Option Int
  endDate : Option Int
  deriving DecidableEq, Repr

/-- Invitation whose `tripId` has been populated; `none` when the trip no longer exists. -/
structure PopulatedMember where
  _id : ObjectId
  tripId : Option TripRef
  userId : ObjectId
  role : Role
  invitedEmail : String
  status : Status
  deriving DecidableEq, Repr

/-- JSON bodies that the handlers send. -/
inductive Body where
  | error (msg : String)
  | message (msg : String)
  | trip (t : Trip)
  | trips (ts : List Trip)
  | auth (token : String) (user : PublicUser)
  | invited (message : String) (invitation : TripMember)
  | invitations (is : List PopulatedMember)
  | joined (message : String) (trip : TripRef)
  deriving DecidableEq, Repr

/-- Top level keys of the JSON object a body serialises to; `none` for a JSON array. -/
def Body.keys : Body → Option (List String)
  | .error _ => some ["error"]
  | .message _ => some ["message"]
  | .trip _ =>
      some ["_id", "title", "destination", "startDate", "endDate", "activities"]
  | .trips _ => none
  | .auth _ _ => some ["token", "user"]
  | .invited _ _ => some ["message", "invitation"]
  | .invitations _ => none
  | .joined _ _ => some ["message", "trip"]

/-- A response: status code and JSON body. -/
structure Response where
  status : Nat
  body : Body
  deriving DecidableEq, Repr

/-! ## Handler computations -/

/-- Per-request context: the store and the responses sent so far. -/
structure Ctx where
  store : Store
  sent : List Response
  deriving DecidableEq, Repr

/-- A handler body: reads and writes the context and either returns or throws. -/
def Handler (α : Type) : Type := Ctx → Except Err α × Ctx

/-- Return without effect. -/
def Handler.pure {α : Type} (a : α) : Handler α := fun c => (.ok a, c)

/-- Sequencing: a throw skips the rest and keeps the context reached so far. -/
def Handler.bind {α β : Type} (m : Handler α) (f : α → Handler β) : Handler β := fun c =>
  match m c with
  | (.ok a, c1) => f a c1
  | (.error e, c1) => (.error e, c1)

instance : Monad Handler where
  pure := Handler.pure
  bind := Handler.bind

/-- Throw an error. -/
def throwErr {α : Type} (e : Err) : Handler α := fun c => (.error e, c)

/-- The call `res.status(code).json(body)`: sends a response, and throws when one was
already sent for this request. -/
def send (status : Nat) (body : Body) : Handler Unit := fun c =>
  if c.sent.isEmpty then (.ok (), { c with sent := c.sent ++ [⟨status, body⟩] })
  else (.error .headersSent, c)

/-- The awaited store calls of the handlers. -/
inductive StoreCall where
  | tripCreate
  | tripFind
  | tripFindById
  | tripFindByIdAndDelete
  | tripFindByIdAndUpdate
  | userCreate
  | userFindOne
  | memberFindOne
  | memberCreate
  | memberFind
  | memberFindByIdAndUpdate
  deriving DecidableEq, Repr

/-- A table of faults: the store calls that fail for a reason of their own. -/
abbrev Faults := StoreCall → Bool

/-- No store call fails by itself. -/
def noFaults : Faults := fun _ => false

/-- A store call under a table of faults: a faulty call throws and has no effect. -/
def attempt {α : Type} (f : Faults) (call : StoreCall) (op : Store → Except Err α) :
    Store → Except Err α := fun s =>
  if f call then .error .storeError else op s

/-- Await a store read. -/
def readStore {α : Type} (f : Store → Except Err α) : Handler α := fun c =>
  match f c.store with
  | .ok a => (.ok a, c)
  | .error e => (.error e, c)

/-- Await a store operation that may write. -/
def writeStore {α : Type} (f : Store → Except Err (α × Store)) : Handler α := fun c =>
  match f c.store with
  | .ok (a, s) => (.ok a, { c with store := s })
  | .error e => (.error e, c)

/-- Lift a pure fallible expression. -/
def liftExcept {α : Type} (x : Except Err α) : Handler α := fun c =>
  match x with
  | .ok a => (.ok a, c)
  | .error e => (.error e, c)

/-- The block `try body catch (error) res.status(500).json(error: msg)`. -/
def tryCatch (body : Handler Unit) (msg : String) : Handler Unit := fun c =>
  match body c with
  | (.ok u, c1) => (.ok u, c1)
  | (.error _, c1) => send 500 (.error msg) c1

/-! ## Casting and validation done by the object-document mapper -/

/-- Whether a character is a hexadecimal digit. -/
def isHexDigit (c : Char) : Bool :=
  (48 ≤ c.toNat && c.toNat ≤ 57) || (97 ≤ c.toNat && c.toNat ≤ 102) ||
    (65 ≤ c.toNat && c.toNat ≤ 70)

/-- Value of a hexadecimal digit. -/
def hexValue (c : Char) : Nat :=
  if 48 ≤ c.toNat && c.toNat ≤ 57 then c.toNat - 48
  else if 97 ≤ c.toNat && c.toNat ≤ 102 then c.toNat - 87
  else c.toNat - 55

/-- Cast of a route parameter to an identifier: a string of 24 hexadecimal digits;
anything else is a cast error of the query. -/
def castObjectId (s : String) : Option ObjectId :=
  if s.data.length = 24 ∧ s.data.all isHexDigit = true then
    some (s.data.foldl (fun acc c => 16 * acc + hexValue c) 0)
  else none

mutual
/-- String conversion of a value, as done by a template literal. -/
def JsVal.toTemplate (env : Env) : JsVal → String
  | .undefined => "undefined"
  | .null => "null"
  | .bool b => if b then "true" else "false"
  | .num q => env.numberToString q
  | .str s => s
  | .arr items => joinItems env items
  | .obj _ => "[object Object]"
/-- String conversion of an array: its items joined by commas. -/
def joinItems (env : Env) : List JsVal → String
  | [] => ""
  | [x] => itemString env x
  | x :: y :: rest => itemString env x ++ "," ++ joinItems env (y :: rest)
/-- String conversion of an array item: nullish items are empty. -/
def itemString (env : Env) : JsVal → String
  | .undefined => ""
  | .null => ""
  | v => JsVal.toTemplate env v
end

/-- The value of the last field with the given key, as `JSON.parse` keeps it. -/
def lookupField (key : String) (fields : List (String × JsVal)) : Option JsVal :=
  (fields.reverse.find? (fun p => p.1 == key)).map (fun p => p.2)

/-- Cast to a String path: nullish values stay absent, a boolean or a number is printed,
an object with a non-empty string `_id` is cast to that string, any other object and
every array is a cast error. -/
def castString (env : Env) : JsVal → Except Err (Option String)
  | .undefined => .ok none
  | .null => .ok none
  | .bool b => .ok (some (if b then "true" else "false"))
  | .num q => .ok (some (env.numberToString q))
  | .str s => .ok (some s)
  | .arr _ => .error .castError
  | .obj fields =>
      match lookupField "_id" fields with
      | some (.str id) => if id = "" then .error .castError else .ok (some id)
      | _ => .error .castError

/-- A String path with `required: true`: the cast value must be a string of non-zero
length; a failed cast is reported by validation. -/
def requiredString (env : Env) (v : JsVal) : Except Err String :=
  match castString env v with
  | .ok (some s) => if s = "" then .error .validationError else .ok s
  | .ok none => .error .validationError
  | .error _ => .error .validationError

/-- Cast to a Date path: nullish values and the empty string are absent, a string goes
through the runtime date parser, a number is a time value (truncated, within the range
of dates), an array is parsed as the string it converts to, a boolean or an object is a
cast error. -/
def castDate (env : Env) : JsVal → Except Err (Option Int)
  | .undefined => .ok none
  | .null => .ok none
  | .bool _ => .error .castError
  | .num q =>
      if -8640000000000000 ≤ q ∧ q ≤ 8640000000000000 then .ok (some (q.num.tdiv q.den))
      else .error .castError
  | .str s =>
      if s = "" then .ok none
      else match env.parseDate s with
        | some d => .ok (some d)
        | none => .error .castError
  | .arr items =>
      match env.parseDate (joinItems env items) with
      | some d => .ok (some d)
      | none => .error .castError
  | .obj _ => .error .castError

/-- A Date path with `required: true`; a failed cast is reported by validation. -/
def requiredDate (env : Env) (v : JsVal) : Except Err Int :=
  match castDate env v with
  | .ok (some d) => .ok d
  | .ok none => .error .validationError
  | .error _ => .error .validationError

/-- Truthiness of a value, as used by `!x` and by `x || y`. -/
def JsVal.truthy : JsVal → Bool
  | .undefined => false
  | .null => false
  | .bool b => b
  | .num q => q != 0
  | .str s => s != ""
  | .arr _ => true
  | .obj _ => true

/-- The method call `v.toLowerCase()`: a type error unless `v` is a string.  The lowering
is that of the runtime; the empty string is its own lower case. -/
def toLowerCase (env : Env) : JsVal → Except Err String
  | .str s => .ok (if s = "" then "" else env.lowerCase s)
  | _ => .error .typeError

/-- An identifier not used by any of the given ones. -/
def freshId (ids : List ObjectId) : ObjectId := ids.foldr max 0 + 1

/-- Destructuring of `req.body`: a type error when no body was parsed.  A body that is a
JSON array has none of the keys, like the empty object. -/
def destructure {α : Type} : Option α → Except Err α
  | some b => .ok b
  | none => .error .typeError

/-! ## Trip model (`models/Trip.model.js`) -/

/-- The call `Trip.create` with the four paths: casts and validates them, generates the
identifier and inserts the document with no activities. -/
def Trip.create (env : Env) (title destination startDate endDate : JsVal) (s : Store) :
    Except Err (Trip × Store) :=
  match requiredString env title, requiredString env destination,
    requiredDate env startDate, requiredDate env endDate with
  | .ok t, .ok d, .ok sd, .ok ed =>
      let doc : Trip := ⟨freshId (s.trips.map (fun x => x._id)), t, d, sd, ed, []⟩
      .ok (doc, { s with trips := s.trips ++ [doc] })
  | _, _, _, _ => .error .validationError

/-- The call `Trip.find()`: every trip, in insertion order. -/
def Trip.find (s : Store) : Except Err (List Trip) := .ok s.trips

/-- The call `Trip.findById`. -/
def Trip.findById (raw : String) (s : Store) : Except Err (Option Trip) :=
  match castObjectId raw with
  | none => .error .castError
  | some id => .ok (s.trips.find? (fun t => t._id == id))

/-- The call `Trip.findByIdAndDelete`: returns the deleted document, or nothing when no
trip has the identifier.  Identifiers are unique within a collection, so removing the
documents with the identifier removes at most one. -/
def Trip.findByIdAndDelete (raw : String) (s : Store) : Except Err (Option Trip × Store) :=
  match castObjectId raw with
  | none => .error .castError
  | some id =>
      match s.trips.find? (fun t => t._id == id) with
      | none => .ok (none, s)
      | some t => .ok (some t, { s with trips := s.trips.filter (fun x => x._id != id) })

/-- The five body fields of an activity. -/
structure ActivityBody where
  title : JsVal
  date : JsVal
  time : JsVal
  description : JsVal
  type : JsVal

/-- Cast of a pushed activity to the embedded schema: each path is cast and the default
of `type` is applied; a path that cannot be cast makes the cast of the update fail.
Validators (`required`, `enum`) do not run on an update without `runValidators`. -/
def castActivity (env : Env) (a : ActivityBody) : Except Err Activity :=
  match castString env a.title, castDate env a.date, castString env a.time,
    castString env a.description, castString env a.type with
  | .ok t, .ok d, .ok tm, .ok ds, .ok ty =>
      .ok ⟨t, d, tm, ds,
        match a.type with
        | .undefined => some "activity"
        | _ => ty⟩
  | _, _, _, _, _ => .error .castError

/-- The call `Trip.findByIdAndUpdate` with a push onto `activities` and `new: true`: the
identifier and the update are cast before the store is asked; then it returns the
updated document, or nothing when no trip has the identifier. -/
def Trip.findByIdAndPush (env : Env) (raw : String) (a : ActivityBody) (s : Store) :
    Except Err (Option Trip × Store) :=
  match castObjectId raw with
  | none => .error .castError
  | some id =>
      match castActivity env a with
      | .error e => .error e
      | .ok act =>
          match s.trips.find? (fun t => t._id == id) with
          | none => .ok (none, s)
          | some t =>
              .ok (some { t with activities := t.activities ++ [act] },
                { s with trips := s.trips.map (fun x =>
                    if x._id = id then { x with activities := x.activities ++ [act] }
                    else x) })

/-! ## TripMember model (`models/TripMember.model.js`) -/

/-- Parse a role name of the `enum`. -/
def parseRole (s : String) : Option Role :=
  if s = "owner" then some .owner
  else if s = "editor" then some .editor
  else if s = "viewer" then some .viewer
  else none

/-- Parse a status name of the `enum`. -/
def parseStatus (s : String) : Option Status :=
  if s = "pending" then some .pending
  else if s = "accepted" then some .accepted
  else if s = "rejected" then some .rejected
  else none

/-- The object handed to `TripMember.create`; `userId` is `none` when the key is not
given. -/
structure TripMemberInput where
  tripId : String
  userId : Option String
  invitedEmail : String
  role : JsVal
  status : JsVal

/-- Validation of `role`: the default is `editor`, any other value must be in the enum.
The handler passes a truthy value or the string editor, never `null`. -/
def validateRole (env : Env) (v : JsVal) : Except Err Role :=
  match v with
  | .undefined => .ok .editor
  | _ =>
      match castString env v with
      | .ok (some r) =>
          match parseRole r with
          | some x => .ok x
          | none => .error .validationError
      | _ => .error .validationError

/-- Validation of `status`: the default is `pending`, any other value must be in the enum.
The handler passes the string pending. -/
def validateStatus (env : Env) (v : JsVal) : Except Err Status :=
  match v with
  | .undefined => .ok .pending
  | _ =>
      match castString env v with
      | .ok (some r) =>
          match parseStatus r with
          | some x => .ok x
          | none => .error .validationError
      | _ => .error .validationError

/-- A reference path with `required: true`, given as identifier string. -/
def requiredRef (v : Option String) : Except Err ObjectId :=
  match v with
  | none => .error .validationError
  | some raw =>
      match castObjectId raw with
      | some id => .ok id
      | none => .error .validationError

/-- The call `TripMember.create`: validates the document against the schema (`tripId`,
`userId` and `invitedEmail` required, `role` and `status` in their enums), then inserts
it; the unique index on the pair of `tripId` and `invitedEmail` rejects a duplicate. -/
def TripMember.create (env : Env) (d : TripMemberInput) (s : Store) :
    Except Err (TripMember × Store) :=
  match requiredRef (some d.tripId), requiredRef d.userId,
    requiredString env (.str d.invitedEmail), validateRole env d.role,
    validateStatus env d.status with
  | .ok t, .ok u, .ok e, .ok r, .ok st =>
      if s.members.any (fun m => m.tripId == t && m.invitedEmail == e) then
        .error .duplicateKey
      else
        let doc : TripMember := ⟨freshId (s.members.map (fun x => x._id)), t, u, r, e, st⟩
        .ok (doc, { s with members := s.members ++ [doc] })
  | _, _, _, _, _ => .error .validationError

/-- The call `TripMember.findOne` with a filter on `tripId` and `invitedEmail`. -/
def TripMember.findOne (rawTrip : String) (email : String) (s : Store) :
    Except Err (Option TripMember) :=
  match castObjectId rawTrip with
  | none => .error .castError
  | some t => .ok (s.members.find? (fun m => m.tripId == t && m.invitedEmail == email))

/-- The join done by `populate` on `tripId`; `dates` tells whether `startDate` and
`endDate` are among the selected paths. -/
def populate (s : Store) (dates : Bool) (m : TripMember) : PopulatedMember :=
  ⟨m._id,
    (s.trips.find? (fun t => t._id == m.tripId)).map (fun t =>
      ⟨t._id, t.title, t.destination,
        if dates then some t.startDate else none, if dates then some t.endDate else none⟩),
    m.userId, m.role, m.invitedEmail, m.status⟩

/-- The query `TripMember.find` on `invitedEmail` and the status pending, populated with
title, destination and both dates. -/
def TripMember.findPending (email : String) (s : Store) : Except Err (List PopulatedMember) :=
  .ok ((s.members.filter (fun m => m.invitedEmail == email && m.status == .pending)).map
    (populate s true))

/-- The call `TripMember.findByIdAndUpdate` setting `status` with `new: true`, populated
with title and destination: returns the updated invitation, or nothing when no
invitation has the identifier. -/
def TripMember.findByIdAndSetStatus (raw : String) (st : Status) (s : Store) :
    Except Err (Option PopulatedMember × Store) :=
  match castObjectId raw with
  | none => .error .castError
  | some id =>
      match s.members.find? (fun m => m._id == id) with
      | none => .ok (none, s)
      | some m =>
          .ok (some (populate s false { m with status := st }),
            { s with members := s.members.map (fun x =>
                if x._id = id then { x with status := st } else x) })

/-! ## User model (`models/User.model.js`, not among the sources) -/

/-- Modelled from the spec: `User.create` of the missing `models/User.model.js`.
Username and email must be unique in the store and the password is hashed before
storage; the three values must cast to non-empty strings. -/
def User.create (env : Env) (username email password : JsVal) (s : Store) :
    Except Err (User × Store) :=
  match requiredString env username, requiredString env email,
    requiredString env password with
  | .ok u, .ok e, .ok p =>
      if s.users.any (fun x => x.username == u || x.email == e) then .error .duplicateKey
      else
        let doc : User := ⟨freshId (s.users.map (fun x => x._id)), u, e, env.hashPassword p⟩
        .ok (doc, { s with users := s.users ++ [doc] })
  | _, _, _ => .error .validationError

/-- Modelled from the spec: `User.findOne` of the missing `models/User.model.js` with a
filter on `email`: an exact match on the cast value, no match for a nullish value; an
object is read by the store as a document of query operators. -/
def User.findOne (env : Env) (email : JsVal) (s : Store) : Except Err (Option User) :=
  match email with
  | .obj fields =>
      match env.operatorFilter fields with
      | .ok p => .ok (s.users.find? (fun u => p u.email))
      | .error e => .error e
  | v =>
      match castString env v with
      | .ok (some e) => .ok (s.users.find? (fun u => u.email == e))
      | .ok none => .ok none
      | .error e => .error e

/-- Modelled from the spec: the method `correctPassword` of the missing
`models/User.model.js`, a one-way verification of the candidate against the stored hash;
a candidate that is not a string makes the hashing routine throw. -/
def User.correctPassword (env : Env) (candidate : JsVal) (hash : String) : Except Err Bool :=
  match candidate with
  | .str p => .ok (env.verifyPassword p hash)
  | _ => .error .typeError

/-- The call `jwt.sign` on the identifier with the secret of the process environment; it
throws when the secret is absent. -/
def jwtSign (env : Env) (id : ObjectId) : Except Err String :=
  match env.jwtSecret with
  | some k => .ok (env.jwtSign id k)
  | none => .error .jwtError

/-! ## Route handlers (`server/index.js`) -/

/-- Body of `POST /api/trips`. -/
structure TripBody where
  title : JsVal
  destination : JsVal
  startDate : JsVal
  endDate : JsVal

/-- Body of `POST /api/auth/signup`. -/
structure SignupBody where
  username : JsVal
  email : JsVal
  password : JsVal

/-- Body of `POST /api/auth/login`. -/
structure LoginBody where
  email : JsVal
  password : JsVal

/-- Body of `POST /api/trips/:tripId/invite`. -/
structure InviteBody where
  email : JsVal
  role : JsVal

/-- Handler of `GET /api/test`; it has no `try` block. -/
def testRoute : Handler Unit :=
  send 200 (.message "Hello from the Travel Planner backend!")

/-- Handler of `POST /api/trips`. -/
def createTrip (f : Faults) (env : Env) (body : Option TripBody) : Handler Unit :=
  tryCatch (do
    let b ← liftExcept (destructure body)
    let newTrip ← writeStore (attempt f .tripCreate
      (Trip.create env b.title b.destination b.startDate b.endDate))
    send 201 (.trip newTrip)) "Failed to create trip."

/-- Handler of `GET /api/trips`. -/
def listTrips (f : Faults) : Handler Unit :=
  tryCatch (do
    let allTrips ← readStore (attempt f .tripFind Trip.find)
    send 200 (.trips allTrips)) "Failed to fetch trips."

/-- Handler of `DELETE /api/trips/:id`. -/
def deleteTrip (f : Faults) (id : String) : Handler Unit :=
  tryCatch (do
    let deletedTrip ← writeStore (attempt f .tripFindByIdAndDelete (Trip.findByIdAndDelete id))
    match deletedTrip with
    | none => send 404 (.error "Trip not found.")
    | some t => send 200 (.message ("Trip \x27" ++ t.title ++ "\x27 was deleted successfully.")))
    "Failed to delete trip."

/-- Handler of `POST /api/trips/:tripId/activities`. -/
def addActivity (f : Faults) (env : Env) (tripId : String) (body : Option ActivityBody) :
    Handler Unit :=
  tryCatch (do
    let b ← liftExcept (destructure body)
    let updatedTrip ← writeStore (attempt f .tripFindByIdAndUpdate
      (Trip.findByIdAndPush env tripId b))
    match updatedTrip with
    | none => send 404 (.error "Trip not found.")
    | some t => send 201 (.trip t)) "Failed to add activity."

/-- Handler of `POST /api/auth/signup`. -/
def signup (f : Faults) (env : Env) (body : Option SignupBody) : Handler Unit :=
  tryCatch (do
    let b ← liftExcept (destructure body)
    let newUser ← writeStore (attempt f .userCreate
      (User.create env b.username b.email b.password))
    let token ← liftExcept (jwtSign env newUser._id)
    send 201 (.auth token ⟨newUser._id, newUser.username, newUser.email⟩))
    "Failed to create account. Username or email may already exist."

/-- Handler of `POST /api/auth/login`. -/
def login (f : Faults) (env : Env) (body : Option LoginBody) : Handler Unit :=
  tryCatch (do
    let b ← liftExcept (destructure body)
    let user ← readStore (attempt f .userFindOne (User.findOne env b.email))
    match user with
    | none => send 401 (.error "Invalid email or password")
    | some u => do
        let isPasswordValid ← liftExcept (User.correctPassword env b.password u.password)
        if !isPasswordValid then send 401 (.error "Invalid email or password")
        else do
          let token ← liftExcept (jwtSign env u._id)
          send 200 (.auth token ⟨u._id, u.username, u.email⟩)) "Failed to login."

/-- Handler of `POST /api/trips/:tripId/invite`. -/
def inviteMember (f : Faults) (env : Env) (tripId : String) (body : Option InviteBody) :
    Handler Unit :=
  tryCatch (do
    let b ← liftExcept (destructure body)
    let trip ← readStore (attempt f .tripFindById (Trip.findById tripId))
    match trip with
    | none => send 404 (.error "Trip not found.")
    | some _ => do
        let lowered ← liftExcept (toLowerCase env b.email)
        let existingInvite ← readStore (attempt f .memberFindOne
          (TripMember.findOne tripId lowered))
        match existingInvite with
        | some _ => send 400 (.error "User has already been invited to this trip.")
        | none => do
            let invitedEmail ← liftExcept (toLowerCase env b.email)
            let newInvitation ← writeStore (attempt f .memberCreate (TripMember.create env
              ⟨tripId, none, invitedEmail, if b.role.truthy then b.role else .str "editor",
                .str "pending"⟩))
            send 201 (.invited ("Invitation sent to " ++ b.email.toTemplate env)
              newInvitation))
    "Failed to send invitation."

/-- Handler of `GET /api/user/invitations`; `email` is the query parameter. -/
def listInvitations (f : Faults) (env : Env) (email : JsVal) : Handler Unit :=
  tryCatch (
    if !email.truthy then send 400 (.error "Email parameter is required")
    else do
      let lowered ← liftExcept (toLowerCase env email)
      let invitations ← readStore (attempt f .memberFind (TripMember.findPending lowered))
      send 200 (.invitations invitations)) "Failed to fetch invitations."

/-- Handler of `PUT /api/invitations/:invitationId/accept`.  Reading `title` of the
populated trip throws when the trip is gone. -/
def acceptInvitation (f : Faults) (invitationId : String) : Handler Unit :=
  tryCatch (do
    let updatedInvitation ← writeStore (attempt f .memberFindByIdAndUpdate
      (TripMember.findByIdAndSetStatus invitationId .accepted))
    match updatedInvitation with
    | none => send 404 (.error "Invitation not found.")
    | some inv =>
        match inv.tripId with
        | none => throwErr .typeError
        | some t => send 200 (.joined ("You have joined the trip: " ++ t.title) t))
    "Failed to accept invitation."

/-! ## The server as a transition system -/

/-- The requests the server routes. -/
inductive Request where
  | test
  | createTrip (body : Option TripBody)
  | listTrips
  | deleteTrip (id : String)
  | addActivity (tripId : String) (body : Option ActivityBody)
  | signup (body : Option SignupBody)
  | login (body : Option LoginBody)
  | invite (tripId : String) (body : Option InviteBody)
  | listInvitations (email : JsVal)
  | accept (invitationId : String)

/-- Routing of a request to its handler. -/
def route (f : Faults) (env : Env) : Request → Handler Unit
  | .test => testRoute
  | .createTrip b => createTrip f env b
  | .listTrips => listTrips f
  | .deleteTrip id => deleteTrip f id
  | .addActivity t b => addActivity f env t b
  | .signup b => signup f env b
  | .login b => login f env b
  | .invite t b => inviteMember f env t b
  | .listInvitations e => listInvitations f env e
  | .accept i => acceptInvitation f i

/-- The message of the `catch` block of each route; the test route has none. -/
def catchMessage : Request → Option String
  | .test => none
  | .createTrip _ => some "Failed to create trip."
  | .listTrips => some "Failed to fetch trips."
  | .deleteTrip _ => some "Failed to delete trip."
  | .addActivity _ _ => some "Failed to add activity."
  | .signup _ => some "Failed to create account. Username or email may already exist."
  | .login _ => some "Failed to login."
  | .invite _ _ => some "Failed to send invitation."
  | .listInvitations _ => some "Failed to fetch invitations."
  | .accept _ => some "Failed to accept invitation."

/-- What one request leaves behind: the store, the responses sent, and the error that
escaped the handler, if any. -/
structure Outcome where
  store : Store
  sent : List Response
  escaped : Option Err
  deriving DecidableEq, Repr

/-- Run a handler on a store, with no response sent yet. -/
def run (h : Handler Unit) (s : Store) : Outcome :=
  match h ⟨s, []⟩ with
  | (.ok _, c) => ⟨c.store, c.sent, none⟩
  | (.error e, c) => ⟨c.store, c.sent, some e⟩

/-- Serve one request under a table of faults. -/
def serve (f : Faults) (env : Env) (req : Request) (s : Store) : Outcome :=
  run (route f env req) s

/-- Serve one request when no store call fails by itself. -/
def handle (env : Env) (req : Request) (s : Store) : Outcome := serve noFaults env req s

/-- Stores reachable from a given store by any sequence of requests, under any faults. -/
inductive ReachableFrom (s0 : Store) : Store → Prop where
  | init : ReachableFrom s0 s0
  | step (f : Faults) (env : Env) (req : Request) (s : Store) :
      ReachableFrom s0 s → ReachableFrom s0 (serve f env req s).store

/-- Stores reachable from the empty store. -/
def Reachable (s : Store) : Prop := ReachableFrom Store.empty s

/-! ## Vocabulary of the statements -/

/-- An optional string field of a body: absent or a string. -/
def JsVal.ofOption : Option String → JsVal
  | none => .undefined
  | some s => .str s

/-- The key of the unique index of `tripMemberSchema` for each stored invitation. -/
def invitationKeys (s : Store) : List (ObjectId × String) :=
  s.members.map (fun m => (m.tripId, m.invitedEmail))

/-- No two stored invitations have the same `tripId` and the same `invitedEmail`. -/
def UniqueInvitations (s : Store) : Prop := (invitationKeys s).Nodup

/-- No stored invitation has the status rejected. -/
def NoRejected (s : Store) : Prop := ∀ m ∈ s.members, m.status ≠ .rejected

/-- What the statement on responses asks of one response of a request. -/
def GoodReply (req : Request) (r : Response) : Prop :=
  (r.status ∈ [400, 401, 404, 500] →
    r.body.keys = some ["error"] ∧ ∃ msg, r.body = .error msg) ∧
  (r.status = 500 → ∃ msg, catchMessage req = some msg ∧ r.body = .error msg)

/-- A computation that sends nothing. -/
def Quiet {α : Type} (m : Handler α) : Prop := ∀ c, (m c).2.sent = c.sent

/-- A body that, started with nothing sent, returns after exactly one good response or
throws before any. -/
def Tidy (P : Response → Prop) (h : Handler Unit) : Prop :=
  ∀ c, c.sent = [] →
    (∃ c1 r, h c = (.ok (), c1) ∧ c1.sent = [r] ∧ P r) ∨
    (∃ e c1, h c = (.error e, c1) ∧ c1.sent = [])

/-! ## Sample data -/

/-- Lower casing of the letters A to Z, which is the lower casing of the runtime on the
strings of the samples. -/
def asciiLower (s : String) : String := String.mk (s.data.map Char.toLower)

/-- An environment that parses three dates of April 2025 and has a signing secret. -/
def sampleEnv : Env where
  parseDate := fun s =>
    if s = "2025-04-01" then some 1743465600000
    else if s = "2025-04-02" then some 1743552000000
    else if s = "2025-04-10" then some 1744243200000
    else none
  lowerCase := asciiLower
  numberToString := fun q => toString q
  jwtSecret := some "secret"
  jwtSign := fun id k => k ++ "." ++ toString id
  hashPassword := fun p => "hash:" ++ p
  verifyPassword := fun p h => "hash:" ++ p == h
  operatorFilter := fun _ => .error .castError

/-- A stored trip with no activities. -/
def sampleTrip : Trip := ⟨1, "Japan Trip", "Tokyo", 1743465600000, 1744243200000, []⟩

/-- A stored trip with two activities. -/
def plannedTrip : Trip :=
  ⟨3, "Kyoto Trip", "Kyoto", 1743465600000, 1744243200000,
    [⟨some "Arrive", some 1743465600000, none, none, some "flight"⟩,
      ⟨some "Check in", some 1743465600000, some "15:00", none, some "hotel"⟩]⟩

/-- A stored user. -/
def sampleUser : User := ⟨2, "ann", "ann@example.com", "hash:pw"⟩

/-- A pending invitation to the sample trip. -/
def sampleInvitation : TripMember := ⟨5, 1, 2, .editor, "friend@example.com", .pending⟩

/-- An accepted invitation of another email to the sample trip. -/
def acceptedInvitation : TripMember := ⟨6, 1, 2, .viewer, "guest@example.com", .accepted⟩

/-- A store with the sample trip, user and invitation. -/
def sampleStore : Store := ⟨[sampleTrip], [sampleUser], [sampleInvitation]⟩

/-- A store with two trips and two invitations to the first of them. -/
def busyStore : Store :=
  ⟨[sampleTrip, plannedTrip], [sampleUser], [sampleInvitation, acceptedInvitation]⟩

/-- A document for `TripMember.create` that names a user and a third email. -/
def thirdInput : TripMemberInput :=
  ⟨"000000000000000000000001", some "000000000000000000000002", "third@example.com",
    .undefined, .str "pending"⟩

/-- The invitation that document becomes in the busy store. -/
def thirdInvitation : TripMember := ⟨7, 1, 2, .editor, "third@example.com", .pending⟩

/-- A document for `TripMember.create` whose trip and email are already invited. -/
def repeatedInput : TripMemberInput :=
  ⟨"000000000000000000000001", some "000000000000000000000002", "guest@example.com",
    .undefined, .str "pending"⟩

/-- A store with the sample trip and no invitation. -/
def tripOnlyStore : Store := ⟨[sampleTrip], [], []⟩

/-- Route parameter of the sample trip. -/
def sampleTripId : String := "000000000000000000000001"

/-- Route parameter of the planned trip. -/
def plannedTripId : String := "000000000000000000000003"

/-- Route parameter of the sample invitation. -/
def sampleInvitationId : String := "000000000000000000000005"

/-- A route parameter that is a well-formed identifier of no document. -/
def unknownId : String := "0000000000000000000000ff"

/-- A table of faults in which only the listing of trips fails. -/
def listingDown : Faults := fun c => c == .tripFind

/-! ## Lemmas on lists, casts and the store operations -/

theorem find_none_of_forall {α : Type} (p : α → Bool) (l : List α)
    (h : ∀ x ∈ l, p x = false) : l.find? p = none := by
  simp [List.find?_eq_none]
  intro x hx; simp [h x hx]

theorem find_some_of_exists {α : Type} (p : α → Bool) (l : List α)
    (h : ∃ x ∈ l, p x = true) : ∃ y, l.find? p = some y := by
  cases hf : l.find? p with
  | none =>
      obtain ⟨x, hx, hpx⟩ := h
      have := List.find?_eq_none.mp hf x hx
      simp [hpx] at this
  | some y => exact ⟨y, rfl⟩

theorem castString_ofOption (env : Env) (o : Option String) :
    castString env (JsVal.ofOption o) = .ok o := by
  cases o <;> rfl

theorem lt_freshId (ids : List ObjectId) : ∀ x ∈ ids, x < freshId ids := by
  induction ids with
  | nil => simp
  | cons a l ih =>
      intro x hx
      simp only [freshId, List.foldr_cons] at ih ⊢
      rcases List.mem_cons.mp hx with h | h
      · subst h
        exact Nat.lt_succ_of_le (Nat.le_max_left _ _)
      · exact Nat.lt_succ_of_le
          (Nat.le_trans (Nat.le_of_lt_succ (ih x h)) (Nat.le_max_right _ _))

theorem toLowerCase_truthy {env : Env} {v : JsVal} {m : String}
    (h : toLowerCase env v = .ok m) (hm : m ≠ "") : v.truthy = true := by
  cases v with
  | str e =>
      by_cases he : e = ""
      · subst he
        simp [toLowerCase] at h
        exact absurd h.symm hm
      · simp [JsVal.truthy, he]
  | undefined => simp [toLowerCase] at h
  | null => simp [toLowerCase] at h
  | bool b => simp [toLowerCase] at h
  | num n => simp [toLowerCase] at h
  | arr l => simp [toLowerCase] at h
  | obj l => simp [toLowerCase] at h

theorem attempt_ok {α : Type} {f : Faults} {call : StoreCall} {op : Store → Except Err α}
    {s : Store} {a : α} (h : attempt f call op s = .ok a) : op s = .ok a := by
  unfold attempt at h
  split at h
  · simp at h
  · exact h

theorem map_setStatus_mem (ms : List TripMember) (id : ObjectId) (st : Status) :
    ∀ j ∈ ms.map (fun x => if x._id = id then { x with status := st } else x),
      j._id = id → j.status = st := by
  intro j hj hid
  rcases List.mem_map.mp hj with ⟨x, _, rfl⟩
  by_cases h : x._id = id
  · simp [h]
  · simp [h] at hid

theorem tripCreate_members {env : Env} {a b c d : JsVal} {s s1 : Store} {t : Trip}
    (h : Trip.create env a b c d s = .ok (t, s1)) : s1.members = s.members := by
  unfold Trip.create at h
  split at h
  · simp at h; rw [← h.2]
  · simp at h

theorem tripDelete_members {raw : String} {s s1 : Store} {o : Option Trip}
    (h : Trip.findByIdAndDelete raw s = .ok (o, s1)) : s1.members = s.members := by
  unfold Trip.findByIdAndDelete at h
  split at h
  · simp at h
  · split at h <;> simp at h <;> rw [← h.2]

theorem tripPush_members {env : Env} {raw : String} {a : ActivityBody}
    {s s1 : Store} {o : Option Trip}
    (h : Trip.findByIdAndPush env raw a s = .ok (o, s1)) : s1.members = s.members := by
  unfold Trip.findByIdAndPush at h
  split at h
  · simp at h
  · split at h
    · simp at h
    · split at h <;> simp at h <;> rw [← h.2]

theorem userCreate_members {env : Env} {a b c : JsVal} {s s1 : Store} {u : User}
    (h : User.create env a b c s = .ok (u, s1)) : s1.members = s.members := by
  unfold User.create at h
  split at h
  · split at h <;> simp at h
    rw [← h.2]
  · simp at h

theorem setStatus_members {raw : String} {st : Status} {s s1 : Store}
    {o : Option PopulatedMember}
    (h : TripMember.findByIdAndSetStatus raw st s = .ok (o, s1)) :
    s1.members = s.members ∨ ∃ id, s1.members = s.members.map (fun x =>
      if x._id = id then { x with status := st } else x) := by
  unfold TripMember.findByIdAndSetStatus at h
  split at h
  · simp at h
  · rename_i id _
    split at h <;> simp at h
    · left; rw [← h.2]
    · right; exact ⟨id, by rw [← h.2]⟩

/-- The handler of the invite route never passes `userId`, and the schema requires it:
validation rejects every document the handler builds. -/
theorem memberCreate_requires_userId (env : Env) (d : TripMemberInput) (s : Store)
    (h : d.userId = none) : TripMember.create env d s = .error .validationError := by
  unfold TripMember.create
  simp [h, requiredRef]

/-- What a successful `TripMember.create` does: it appends the new document, whose status
is the validated one and whose index key no stored invitation has. -/
theorem memberCreate_spec {d : TripMemberInput} {s s1 : Store} {m : TripMember}
    {env : Env} (h : TripMember.create env d s = .ok (m, s1)) :
    s1.members = s.members ++ [m] ∧ validateStatus env d.status = .ok m.status ∧
    ∀ x ∈ s.members, ¬ (x.tripId = m.tripId ∧ x.invitedEmail = m.invitedEmail) := by
  unfold TripMember.create at h
  split at h
  · rename_i t u e r st _ _ _ _ hst
    split at h
    · simp at h
    · rename_i hany
      simp at h
      obtain ⟨hm, hs⟩ := h
      subst hm
      subst hs
      refine ⟨rfl, hst, ?_⟩
      intro x hx heq
      apply hany
      simp only [List.any_eq_true]
      exact ⟨x, hx, by simp [heq.1, heq.2]⟩
  · simp at h

/-- The recovery boundary in general: a body that, starting with nothing sent, either
returns after one response or throws before any, ends with exactly one response and no
escaped error. -/
theorem tryCatch_settles (body : Handler Unit) (msg : String) (s : Store)
    (h : (∃ s1 r, body ⟨s, []⟩ = (.ok (), ⟨s1, [r]⟩)) ∨
      (∃ e s1, body ⟨s, []⟩ = (.error e, ⟨s1, []⟩))) :
    (run (tryCatch body msg) s).escaped = none ∧
    (run (tryCatch body msg) s).sent.length = 1 := by
  rcases h with ⟨s1, r, h⟩ | ⟨e, s1, h⟩ <;> simp [run, tryCatch, h, send]


/-! ## The recovery boundary -/

theorem quiet_readStore {α : Type} (op : Store → Except Err α) : Quiet (readStore op) := by
  intro c; unfold readStore; split <;> rfl

theorem quiet_writeStore {α : Type} (op : Store → Except Err (α × Store)) :
    Quiet (writeStore op) := by
  intro c; unfold writeStore; split <;> rfl

theorem quiet_liftExcept {α : Type} (x : Except Err α) : Quiet (liftExcept x) := by
  intro c; unfold liftExcept; split <;> rfl

theorem tidy_send {P : Response → Prop} (st : Nat) (b : Body) (h : P ⟨st, b⟩) :
    Tidy P (send st b) := by
  intro c hc
  left
  exact ⟨{ c with sent := c.sent ++ [⟨st, b⟩] }, ⟨st, b⟩, by simp [send, hc], by simp [hc], h⟩

theorem tidy_throw {P : Response → Prop} (e : Err) : Tidy P (throwErr e) := by
  intro c hc
  right
  exact ⟨e, c, rfl, hc⟩

theorem tidy_bind {α : Type} {P : Response → Prop} {m : Handler α} {k : α → Handler Unit}
    (hm : Quiet m) (hk : ∀ a, Tidy P (k a)) : Tidy P (m >>= k) := by
  intro c hc
  have hq := hm c
  show (∃ c1 r, Handler.bind m k c = (.ok (), c1) ∧ c1.sent = [r] ∧ P r) ∨
    (∃ e c1, Handler.bind m k c = (.error e, c1) ∧ c1.sent = [])
  unfold Handler.bind
  rcases hmc : m c with ⟨_ | a, c1⟩
  · right
    rw [hmc] at hq
    exact ⟨_, c1, rfl, by simpa [hc] using hq⟩
  · rw [hmc] at hq
    exact hk a c1 (by simpa [hc] using hq)

theorem tryCatch_of_tidy {P : Response → Prop} {body : Handler Unit} {msg : String}
    (hb : Tidy P body) (hP : P ⟨500, .error msg⟩) (s : Store) :
    (run (tryCatch body msg) s).escaped = none ∧
    ∃ r, (run (tryCatch body msg) s).sent = [r] ∧ P r := by
  rcases hb ⟨s, []⟩ rfl with ⟨c1, r, h, hs, hr⟩ | ⟨e, c1, h, hs⟩
  · simp [run, tryCatch, h, hs, hr]
  · simp [run, tryCatch, h, send, hs, hP]

/-- Every request is answered exactly once and no error escapes; the response has the
shape asked of error responses, and a 500 carries the message of the `catch` block. -/
theorem serve_answers_once (f : Faults) (env : Env) (req : Request) (s : Store) :
    (serve f env req s).escaped = none ∧
    ∃ r, (serve f env req s).sent = [r] ∧ GoodReply req r := by
  cases req with
  | test => simp [serve, route, run, testRoute, send, GoodReply]
  | createTrip b =>
      refine tryCatch_of_tidy (tidy_bind (quiet_liftExcept _) fun b =>
        tidy_bind (quiet_writeStore _) fun t => tidy_send _ _ ?_) ?_ s <;>
      simp [GoodReply, Body.keys, catchMessage]
  | listTrips =>
      refine tryCatch_of_tidy (tidy_bind (quiet_readStore _) fun t => tidy_send _ _ ?_) ?_ s <;>
      simp [GoodReply, Body.keys, catchMessage]
  | deleteTrip id =>
      refine tryCatch_of_tidy (tidy_bind (quiet_writeStore _) fun t => ?_) ?_ s
      · cases t <;> refine tidy_send _ _ ?_ <;> simp [GoodReply, Body.keys, catchMessage]
      · simp [GoodReply, Body.keys, catchMessage]
  | addActivity t b =>
      refine tryCatch_of_tidy (tidy_bind (quiet_liftExcept _) fun b =>
        tidy_bind (quiet_writeStore _) fun t => ?_) ?_ s
      · cases t <;> refine tidy_send _ _ ?_ <;> simp [GoodReply, Body.keys, catchMessage]
      · simp [GoodReply, Body.keys, catchMessage]
  | signup b =>
      refine tryCatch_of_tidy (tidy_bind (quiet_liftExcept _) fun b =>
        tidy_bind (quiet_writeStore _) fun u =>
        tidy_bind (quiet_liftExcept _) fun tok => tidy_send _ _ ?_) ?_ s <;>
      simp [GoodReply, Body.keys, catchMessage]
  | login b =>
      refine tryCatch_of_tidy (tidy_bind (quiet_liftExcept _) fun b =>
        tidy_bind (quiet_readStore _) fun u => ?_) ?_ s
      · cases u with
        | none => refine tidy_send _ _ ?_; simp [GoodReply, Body.keys, catchMessage]
        | some u =>
            refine tidy_bind (quiet_liftExcept _) fun v => ?_
            cases v with
            | false => refine tidy_send _ _ ?_; simp [GoodReply, Body.keys, catchMessage]
            | true =>
                refine tidy_bind (quiet_liftExcept _) fun tok => tidy_send _ _ ?_
                simp [GoodReply, Body.keys, catchMessage]
      · simp [GoodReply, Body.keys, catchMessage]
  | invite t b =>
      refine tryCatch_of_tidy (tidy_bind (quiet_liftExcept _) fun b =>
        tidy_bind (quiet_readStore _) fun trip => ?_) ?_ s
      · cases trip with
        | none => refine tidy_send _ _ ?_; simp [GoodReply, Body.keys, catchMessage]
        | some trip =>
            refine tidy_bind (quiet_liftExcept _) fun low =>
              tidy_bind (quiet_readStore _) fun ex => ?_
            cases ex with
            | some m => refine tidy_send _ _ ?_; simp [GoodReply, Body.keys, catchMessage]
            | none =>
                refine tidy_bind (quiet_liftExcept _) fun low2 =>
                  tidy_bind (quiet_writeStore _) fun inv => tidy_send _ _ ?_
                simp [GoodReply, Body.keys, catchMessage]
      · simp [GoodReply, Body.keys, catchMessage]
  | listInvitations e =>
      refine tryCatch_of_tidy ?_ ?_ s
      · cases ht : e.truthy
        · simp only [Bool.not_false, if_true]
          refine tidy_send _ _ ?_; simp [GoodReply, Body.keys, catchMessage]
        · simp only [Bool.not_true, Bool.false_eq_true, if_false]
          refine tidy_bind (quiet_liftExcept _) fun low =>
            tidy_bind (quiet_readStore _) fun l => tidy_send _ _ ?_
          simp [GoodReply, Body.keys, catchMessage]
      · simp [GoodReply, Body.keys, catchMessage]
  | accept i =>
      refine tryCatch_of_tidy (tidy_bind (quiet_writeStore _) fun o => ?_) ?_ s
      · cases o with
        | none => refine tidy_send _ _ ?_; simp [GoodReply, Body.keys, catchMessage]
        | some inv =>
            cases ht : inv.tripId with
            | none => simp only [ht]; exact tidy_throw _
            | some t => simp only [ht]; refine tidy_send _ _ ?_; simp [GoodReply, Body.keys, catchMessage]
      · simp [GoodReply, Body.keys, catchMessage]

/-! ## The transition system -/

/-- What one request can do to the invitations: nothing, set the status of the invitations
with one identifier to accepted, or insert one pending invitation with a new index key. -/
theorem members_step (f : Faults) (env : Env) (req : Request) (s : Store) :
    (serve f env req s).store.members = s.members ∨
    (∃ id, (serve f env req s).store.members = s.members.map (fun x =>
      if x._id = id then { x with status := .accepted } else x)) ∨
    ∃ m, (serve f env req s).store.members = s.members ++ [m] ∧ m.status = .pending ∧
      (∀ x ∈ s.members, ¬ (x.tripId = m.tripId ∧ x.invitedEmail = m.invitedEmail)) ∧
      ∃ t b, req = .invite t b := by
  cases req with
  | test => left; simp [serve, route, run, testRoute, send]
  | createTrip b =>
      left
      cases b with
      | none =>
          simp [serve, route, run, createTrip, tryCatch, bind, Handler.bind, liftExcept,
            destructure, send]
      | some b =>
          rcases h : attempt f .tripCreate
              (Trip.create env b.title b.destination b.startDate b.endDate) s with e | ⟨t, s1⟩
          · simp [serve, route, run, createTrip, tryCatch, bind, Handler.bind, liftExcept,
              destructure, writeStore, h, send]
          · simpa [serve, route, run, createTrip, tryCatch, bind, Handler.bind, liftExcept,
              destructure, writeStore, h, send] using tripCreate_members (attempt_ok h)
  | listTrips =>
      left
      cases h : attempt f .tripFind Trip.find s <;>
      simp [serve, route, run, listTrips, tryCatch, bind, Handler.bind, readStore, h, send]
  | deleteTrip id =>
      left
      rcases h : attempt f .tripFindByIdAndDelete (Trip.findByIdAndDelete id) s with
        e | ⟨_ | t, s1⟩
      · simp [serve, route, run, deleteTrip, tryCatch, bind, Handler.bind, writeStore, h, send]
      · simpa [serve, route, run, deleteTrip, tryCatch, bind, Handler.bind, writeStore, h,
          send] using tripDelete_members (attempt_ok h)
      · simpa [serve, route, run, deleteTrip, tryCatch, bind, Handler.bind, writeStore, h,
          send] using tripDelete_members (attempt_ok h)
  | addActivity t b =>
      left
      cases b with
      | none =>
          simp [serve, route, run, addActivity, tryCatch, bind, Handler.bind, liftExcept,
            destructure, send]
      | some b =>
          rcases h : attempt f .tripFindByIdAndUpdate (Trip.findByIdAndPush env t b) s with
            e | ⟨_ | t1, s1⟩
          · simp [serve, route, run, addActivity, tryCatch, bind, Handler.bind, liftExcept,
              destructure, writeStore, h, send]
          · simpa [serve, route, run, addActivity, tryCatch, bind, Handler.bind, liftExcept,
              destructure, writeStore, h, send] using tripPush_members (attempt_ok h)
          · simpa [serve, route, run, addActivity, tryCatch, bind, Handler.bind, liftExcept,
              destructure, writeStore, h, send] using tripPush_members (attempt_ok h)
  | signup b =>
      left
      cases b with
      | none =>
          simp [serve, route, run, signup, tryCatch, bind, Handler.bind, liftExcept,
            destructure, send]
      | some b =>
          rcases h : attempt f .userCreate (User.create env b.username b.email b.password) s
            with e | ⟨u, s1⟩
          · simp [serve, route, run, signup, tryCatch, bind, Handler.bind, liftExcept,
              destructure, writeStore, h, send]
          · cases hj : jwtSign env u._id <;>
            simpa [serve, route, run, signup, tryCatch, bind, Handler.bind, liftExcept,
              destructure, writeStore, h, hj, send] using userCreate_members (attempt_ok h)
  | login b =>
      left
      cases b with
      | none =>
          simp [serve, route, run, login, tryCatch, bind, Handler.bind, liftExcept,
            destructure, send]
      | some b =>
          rcases h : attempt f .userFindOne (User.findOne env b.email) s with e | _ | u
          · simp [serve, route, run, login, tryCatch, bind, Handler.bind, liftExcept,
              destructure, readStore, h, send]
          · simp [serve, route, run, login, tryCatch, bind, Handler.bind, liftExcept,
              destructure, readStore, h, send]
          · rcases hp : User.correctPassword env b.password u.password with e | _ | _
            · simp [serve, route, run, login, tryCatch, bind, Handler.bind, liftExcept,
                destructure, readStore, h, hp, send]
            · simp [serve, route, run, login, tryCatch, bind, Handler.bind, liftExcept,
                destructure, readStore, h, hp, send]
            · cases hj : jwtSign env u._id <;>
              simp [serve, route, run, login, tryCatch, bind, Handler.bind, liftExcept,
                destructure, readStore, h, hp, hj, send]
  | invite t b =>
      cases b with
      | none =>
          left
          simp [serve, route, run, inviteMember, tryCatch, bind, Handler.bind, liftExcept,
            destructure, send]
      | some b =>
          rcases h : attempt f .tripFindById (Trip.findById t) s with e | _ | u
          · left
            simp [serve, route, run, inviteMember, tryCatch, bind, Handler.bind, liftExcept,
              destructure, readStore, h, send]
          · left
            simp [serve, route, run, inviteMember, tryCatch, bind, Handler.bind, liftExcept,
              destructure, readStore, h, send]
          · rcases hl : toLowerCase env b.email with e | v
            · left
              simp [serve, route, run, inviteMember, tryCatch, bind, Handler.bind, liftExcept,
                destructure, readStore, h, hl, send]
            · rcases hf : attempt f .memberFindOne (TripMember.findOne t v) s with e | _ | m
              · left
                simp [serve, route, run, inviteMember, tryCatch, bind, Handler.bind,
                  liftExcept, destructure, readStore, h, hl, hf, send]
              · rcases hc : attempt f .memberCreate (TripMember.create env ⟨t, none, v,
                    if b.role.truthy then b.role else .str "editor", .str "pending"⟩) s with
                  e | ⟨m, s1⟩
                · left
                  simp [serve, route, run, inviteMember, tryCatch, bind, Handler.bind,
                    liftExcept, destructure, readStore, writeStore, h, hl, hf, hc, send]
                · right; right
                  obtain ⟨hs1, hst, hkey⟩ := memberCreate_spec (attempt_ok hc)
                  refine ⟨m, ?_, ?_, hkey, t, some b, rfl⟩
                  · simpa [serve, route, run, inviteMember, tryCatch, bind, Handler.bind,
                      liftExcept, destructure, readStore, writeStore, h, hl, hf, hc, send]
                      using hs1
                  · have : validateStatus env (.str "pending") = .ok .pending := by
                      simp [validateStatus, castString, parseStatus]
                    rw [this] at hst
                    simpa using hst.symm
              · left
                simp [serve, route, run, inviteMember, tryCatch, bind, Handler.bind,
                  liftExcept, destructure, readStore, h, hl, hf, send]
  | listInvitations e =>
      left
      cases ht : e.truthy
      · simp [serve, route, run, listInvitations, tryCatch, ht, send]
      · rcases hl : toLowerCase env e with e1 | v
        · simp [serve, route, run, listInvitations, tryCatch, ht, bind, Handler.bind,
            liftExcept, readStore, hl, send]
        · cases hq : attempt f .memberFind (TripMember.findPending v) s <;>
          simp [serve, route, run, listInvitations, tryCatch, ht, bind, Handler.bind,
            liftExcept, readStore, hl, hq, send]
  | accept i =>
      rcases h : attempt f .memberFindByIdAndUpdate
          (TripMember.findByIdAndSetStatus i .accepted) s with e | ⟨_ | inv, s1⟩
      · left
        simp [serve, route, run, acceptInvitation, tryCatch, bind, Handler.bind, writeStore, h,
          send]
      · rcases setStatus_members (attempt_ok h) with h1 | h1
        · left
          simpa [serve, route, run, acceptInvitation, tryCatch, bind, Handler.bind, writeStore,
            h, send] using h1
        · right; left
          simpa [serve, route, run, acceptInvitation, tryCatch, bind, Handler.bind, writeStore,
            h, send] using h1
      · rcases setStatus_members (attempt_ok h) with h1 | h1
        · left
          cases ht : inv.tripId <;>
          simpa [serve, route, run, acceptInvitation, tryCatch, bind, Handler.bind, writeStore,
            h, ht, throwErr, send] using h1
        · right; left
          cases ht : inv.tripId <;>
          simpa [serve, route, run, acceptInvitation, tryCatch, bind, Handler.bind, writeStore,
            h, ht, throwErr, send] using h1

/-- Every request keeps the index keys distinct. -/
theorem unique_step (f : Faults) (env : Env) (req : Request) (s : Store)
    (hu : UniqueInvitations s) : UniqueInvitations (serve f env req s).store := by
  unfold UniqueInvitations invitationKeys at *
  rcases members_step f env req s with h | ⟨id, h⟩ | ⟨m, h, -, hkey, -⟩
  · rw [h]; exact hu
  · rw [h, List.map_map]
    have : ((fun m : TripMember => (m.tripId, m.invitedEmail)) ∘ fun x : TripMember =>
        if x._id = id then { x with status := .accepted } else x) =
        fun m => (m.tripId, m.invitedEmail) := by
      funext x
      by_cases hx : x._id = id <;> simp [hx]
    rw [this]; exact hu
  · rw [h, List.map_append]
    refine List.Nodup.append hu (List.nodup_singleton _) ?_
    intro k hk hk2
    simp only [List.map_cons, List.map_nil, List.mem_singleton] at hk2
    subst hk2
    rcases List.mem_map.mp hk with ⟨x, hx, heq⟩
    simp only [Prod.mk.injEq] at heq
    exact hkey x hx heq

/-- The unique index at work: an insertion that succeeds adds a key no stored invitation
has, so distinct keys stay distinct. -/
theorem memberCreate_unique {env : Env} {d : TripMemberInput} {s s1 : Store} {m : TripMember}
    (hu : UniqueInvitations s) (h : TripMember.create env d s = .ok (m, s1)) :
    UniqueInvitations s1 := by
  obtain ⟨hs1, -, hkey⟩ := memberCreate_spec h
  unfold UniqueInvitations invitationKeys at *
  rw [hs1, List.map_append]
  refine List.Nodup.append hu (List.nodup_singleton _) ?_
  intro k hk hk2
  simp only [List.map_cons, List.map_nil, List.mem_singleton] at hk2
  subst hk2
  rcases List.mem_map.mp hk with ⟨x, hx, heq⟩
  simp only [Prod.mk.injEq] at heq
  exact hkey x hx heq

/-- The unique index at work: a document whose key is stored is never inserted. -/
theorem memberCreate_duplicate {env : Env} {d : TripMemberInput} {s : Store} {t : ObjectId}
    (ht : castObjectId d.tripId = some t)
    (hx : ∃ x ∈ s.members, x.tripId = t ∧ x.invitedEmail = d.invitedEmail)
    (m : TripMember) (s1 : Store) : TripMember.create env d s ≠ .ok (m, s1) := by
  intro h
  obtain ⟨x, hxm, hxt, hxe⟩ := hx
  unfold TripMember.create at h
  split at h
  · rename_i t1 u e r st h1 _ h3 _ _
    have ht1 : t1 = t := by
      simp [requiredRef, ht] at h1
      exact h1.symm
    have he : e = d.invitedEmail := by
      simp only [requiredString, castString] at h3
      split at h3 <;> simp at h3
      exact h3.symm
    split at h
    · simp at h
    · rename_i hany
      apply hany
      simp only [List.any_eq_true]
      exact ⟨x, hxm, by simp [hxt, hxe, ht1, he]⟩
  · simp at h

/-- No request introduces the status rejected. -/
theorem noRejected_step (f : Faults) (env : Env) (req : Request) (s : Store)
    (hr : NoRejected s) : NoRejected (serve f env req s).store := by
  unfold NoRejected at *
  rcases members_step f env req s with h | ⟨id, h⟩ | ⟨m, h, hp, -, -⟩
  · rw [h]; exact hr
  · rw [h]
    intro m hm
    rcases List.mem_map.mp hm with ⟨x, hx, rfl⟩
    by_cases hxi : x._id = id
    · simp [hxi]
    · simpa [hxi] using hr x hx
  · rw [h]
    intro x hx
    rcases List.mem_append.mp hx with hx | hx
    · exact hr x hx
    · rw [List.mem_singleton] at hx
      subst hx
      simp [hp]

/-- An invariant of every step holds along every run from a store that has it. -/
theorem reachableFrom_induction {P : Store → Prop} {s0 s : Store}
    (hstep : ∀ f env req s, P s → P (serve f env req s).store)
    (h0 : P s0) (hr : ReachableFrom s0 s) : P s := by
  induction hr with
  | init => exact h0
  | step f env req s _ ih => exact hstep f env req s ih

/-- The invite route never stores an invitation and never answers 201, whatever the
request, the store and the faults. -/
theorem inviteMember_never_creates (f : Faults) (env : Env) (t : String)
    (b : Option InviteBody) (s : Store) :
    (serve f env (.invite t b) s).store = s ∧
    ∀ r ∈ (serve f env (.invite t b) s).sent, r.status ≠ 201 := by
  cases b with
  | none =>
      simp [serve, route, run, inviteMember, tryCatch, bind, Handler.bind, liftExcept,
        destructure, send]
  | some b =>
      rcases h : attempt f .tripFindById (Trip.findById t) s with e | _ | u
      · simp [serve, route, run, inviteMember, tryCatch, bind, Handler.bind, liftExcept,
          destructure, readStore, h, send]
      · simp [serve, route, run, inviteMember, tryCatch, bind, Handler.bind, liftExcept,
          destructure, readStore, h, send]
      · rcases hl : toLowerCase env b.email with e | v
        · simp [serve, route, run, inviteMember, tryCatch, bind, Handler.bind, liftExcept,
            destructure, readStore, h, hl, send]
        · have hc : attempt f .memberCreate (TripMember.create env ⟨t, none, v,
              if b.role.truthy then b.role else .str "editor", .str "pending"⟩) s =
              .error (if f .memberCreate then .storeError else .validationError) := by
            unfold attempt
            split
            · rfl
            · exact memberCreate_requires_userId env _ s rfl
          rcases hf : attempt f .memberFindOne (TripMember.findOne t v) s with e | _ | m <;>
          simp [serve, route, run, inviteMember, tryCatch, bind, Handler.bind, liftExcept,
            destructure, readStore, writeStore, h, hl, hf, hc, send]

/-- Every reachable store holds no invitation: the invite route is the only one that
inserts, and its insertion never succeeds. -/
theorem reachable_members_nil (s : Store) (h : Reachable s) : s.members = [] := by
  refine reachableFrom_induction (P := fun s => s.members = []) ?_ rfl h
  intro f env req s hs
  rcases members_step f env req s with h | ⟨id, h⟩ | ⟨m, h, -, -, t, b, hreq⟩
  · rw [h, hs]
  · rw [h, hs]; rfl
  · subst hreq
    rw [(inviteMember_never_creates f env t b s).1]; exact hs

/-! ## Claims -/

/-- Claim C6: in every store reachable from the empty store, and in every store reachable
from any store that has the property, no two stored invitations have the same `tripId`
and the same `invitedEmail`; every request preserves the property, under any faults.
The two guards that carry it: the unique index (an insertion through
`TripMember.create` that succeeds adds a key that was not stored and keeps the keys
distinct, and a document whose key is stored is never inserted, whatever else it holds)
and the check of the invite route (an invitation already stored for the trip and the
lowered email is answered 400 and nothing is written).  Distinct keys mean that two
stored invitations with the same trip and email are one and the same. -/
theorem unique_invitations_invariant :
    (∀ s, Reachable s → UniqueInvitations s) ∧
    (∀ s0 s, UniqueInvitations s0 → ReachableFrom s0 s → UniqueInvitations s) ∧
    (∀ (f : Faults) (env : Env) (req : Request) (s : Store),
      UniqueInvitations s → UniqueInvitations (serve f env req s).store) ∧
    (∀ (env : Env) (d : TripMemberInput) (s s1 : Store) (m : TripMember),
      UniqueInvitations s → TripMember.create env d s = .ok (m, s1) →
        s1.members = s.members ++ [m] ∧
        (∀ x ∈ s.members, ¬ (x.tripId = m.tripId ∧ x.invitedEmail = m.invitedEmail)) ∧
        UniqueInvitations s1) ∧
    (∀ (env : Env) (d : TripMemberInput) (s : Store) (t : ObjectId),
      castObjectId d.tripId = some t →
      (∃ x ∈ s.members, x.tripId = t ∧ x.invitedEmail = d.invitedEmail) →
        ∀ m s1, TripMember.create env d s ≠ .ok (m, s1)) ∧
    (∀ (env : Env) (raw : String) (t : ObjectId) (b : InviteBody) (e : String) (s : Store),
      castObjectId raw = some t → (∃ trip ∈ s.trips, trip._id = t) →
      toLowerCase env b.email = .ok e →
      (∃ x ∈ s.members, x.tripId = t ∧ x.invitedEmail = e) →
        handle env (.invite raw (some b)) s =
          ⟨s, [⟨400, .error "User has already been invited to this trip."⟩], none⟩) ∧
    (∀ s, UniqueInvitations s → ∀ a ∈ s.members, ∀ b ∈ s.members,
      a.tripId = b.tripId → a.invitedEmail = b.invitedEmail → a = b) := by
  refine ⟨?_, ?_, unique_step, ?_, ?_, ?_, ?_⟩
  · intro s hs
    exact reachableFrom_induction (P := UniqueInvitations) unique_step
      (by simp [UniqueInvitations, invitationKeys, Store.empty]) hs
  · intro s0 s h0 hs
    exact reachableFrom_induction (P := UniqueInvitations) unique_step h0 hs
  · intro env d s s1 m hu h
    exact ⟨(memberCreate_spec h).1, (memberCreate_spec h).2.2, memberCreate_unique hu h⟩
  · intro env d s t ht hx m s1
    exact memberCreate_duplicate ht hx m s1
  · intro env raw t b e s ht ⟨trip0, htrip0, htid⟩ hl ⟨x0, hx0, hxt, hxe⟩
    obtain ⟨trip, hft⟩ := find_some_of_exists (fun x : Trip => x._id == t) s.trips
      ⟨trip0, htrip0, by simp [htid]⟩
    obtain ⟨x, hfx⟩ := find_some_of_exists
      (fun m : TripMember => m.tripId == t && m.invitedEmail == e) s.members
      ⟨x0, hx0, by simp [hxt, hxe]⟩
    simp [handle, serve, attempt, noFaults, route, run, inviteMember, tryCatch, bind,
      Handler.bind, liftExcept, destructure, readStore, Trip.findById, TripMember.findOne, ht,
      hft, hl, hfx, send]
  · intro s hu a ha b hb ht he
    exact List.inj_on_of_nodup_map hu ha hb (by simp [ht, he])

/-- Witness of C6 on a store with two invitations to one trip: a request keeps the keys
distinct, a third invitation with a new email goes through the index, an invitation for
a stored pair is rejected by it, and the invite route answers 400 for a stored pair. -/
theorem unique_invitations_invariant_witness :
    UniqueInvitations (serve noFaults sampleEnv (.accept sampleInvitationId) busyStore).store ∧
    (TripMember.create sampleEnv thirdInput busyStore =
        .ok (thirdInvitation, { busyStore with members := busyStore.members ++
          [thirdInvitation] }) ∧
      ({ busyStore with members := busyStore.members ++ [thirdInvitation] } : Store).members =
        busyStore.members ++ [thirdInvitation] ∧
      (∀ x ∈ busyStore.members,
        ¬ (x.tripId = thirdInvitation.tripId ∧
          x.invitedEmail = thirdInvitation.invitedEmail)) ∧
      UniqueInvitations { busyStore with members := busyStore.members ++
        [thirdInvitation] }) ∧
    (∀ m s1, TripMember.create sampleEnv repeatedInput busyStore ≠ .ok (m, s1)) ∧
    handle sampleEnv (.invite sampleTripId (some ⟨.str "Guest@Example.com", .undefined⟩))
        busyStore =
      ⟨busyStore, [⟨400, .error "User has already been invited to this trip."⟩], none⟩ ∧
    (∀ a ∈ busyStore.members, ∀ b ∈ busyStore.members,
      a.tripId = b.tripId → a.invitedEmail = b.invitedEmail → a = b) :=
  have hu : UniqueInvitations busyStore := by
    simp [UniqueInvitations, invitationKeys, busyStore, sampleInvitation, acceptedInvitation]
  ⟨unique_invitations_invariant.2.2.1 noFaults sampleEnv (.accept sampleInvitationId)
      busyStore hu,
    ⟨by rfl, unique_invitations_invariant.2.2.2.1 sampleEnv thirdInput busyStore
      { busyStore with members := busyStore.members ++ [thirdInvitation] } thirdInvitation hu
      (by rfl)⟩,
    unique_invitations_invariant.2.2.2.2.1 sampleEnv repeatedInput busyStore 1 (by decide)
      ⟨acceptedInvitation, by decide, rfl, rfl⟩,
    unique_invitations_invariant.2.2.2.2.2.1 sampleEnv sampleTripId 1
      ⟨.str "Guest@Example.com", .undefined⟩ "guest@example.com" busyStore (by decide)
      ⟨sampleTrip, by decide, rfl⟩ (by rfl) ⟨acceptedInvitation, by decide, rfl, rfl⟩,
    unique_invitations_invariant.2.2.2.2.2.2 busyStore hu⟩

/-- Claim C7: no store reachable from the empty store, and no store reachable from a
store without a rejected invitation, holds a rejected invitation; every request, under
any faults, keeps a store free of rejected invitations, keeps every accepted invitation
stored and accepted, and leaves each stored invitation either as it was, or as the
accepted form of a stored one, or as the one new invitation, which is pending; an
invitation inserted with the status the invite route passes is pending. -/
theorem invitation_status_monotone :
    (∀ s, Reachable s → NoRejected s) ∧
    (∀ s0 s, NoRejected s0 → ReachableFrom s0 s → NoRejected s) ∧
    (∀ (f : Faults) (env : Env) (req : Request) (s : Store),
      NoRejected s → NoRejected (serve f env req s).store) ∧
    (∀ (f : Faults) (env : Env) (req : Request) (s : Store) (m : TripMember),
      m ∈ s.members → m.status = .accepted → m ∈ (serve f env req s).store.members) ∧
    (∀ (f : Faults) (env : Env) (req : Request) (s : Store),
      ∀ m1 ∈ (serve f env req s).store.members,
        m1 ∈ s.members ∨
        (m1.status = .accepted ∧ ∃ m ∈ s.members, m1 = { m with status := .accepted }) ∨
        (m1.status = .pending ∧ (serve f env req s).store.members = s.members ++ [m1])) ∧
    (∀ (env : Env) (d : TripMemberInput) (s s1 : Store) (m : TripMember),
      d.status = .str "pending" → TripMember.create env d s = .ok (m, s1) →
        m.status = .pending) := by
  refine ⟨?_, ?_, noRejected_step, ?_, ?_, ?_⟩
  · intro s hs
    exact reachableFrom_induction (P := NoRejected) noRejected_step
      (by simp [NoRejected, Store.empty]) hs
  · intro s0 s h0 hs
    exact reachableFrom_induction (P := NoRejected) noRejected_step h0 hs
  · intro f env req s m hm hacc
    rcases members_step f env req s with h | ⟨id, h⟩ | ⟨m1, h, -, -, -⟩
    · rw [h]; exact hm
    · rw [h]
      refine List.mem_map.mpr ⟨m, hm, ?_⟩
      by_cases hmi : m._id = id
      · simp [hmi]
        cases m
        simp_all
      · simp [hmi]
    · rw [h]; exact List.mem_append_left _ hm
  · intro f env req s m1 hm1
    rcases members_step f env req s with h | ⟨id, h⟩ | ⟨m, h, hp, -, -⟩
    · left; rw [h] at hm1; exact hm1
    · rw [h] at hm1
      rcases List.mem_map.mp hm1 with ⟨x, hx, rfl⟩
      by_cases hxi : x._id = id
      · right; left
        rw [if_pos hxi]
        exact ⟨rfl, x, hx, rfl⟩
      · left; simpa [hxi] using hx
    · rw [h] at hm1
      rcases List.mem_append.mp hm1 with hx | hx
      · left; exact hx
      · rw [List.mem_singleton] at hx
        subst hx
        right; right
        exact ⟨hp, h⟩
  · intro env d s s1 m hd h
    have hst := (memberCreate_spec h).2.1
    rw [hd] at hst
    have : validateStatus env (.str "pending") = .ok .pending := by
      simp [validateStatus, castString, parseStatus]
    rw [this] at hst
    simpa using hst.symm

/-- Witness of C7 on a store with a pending and an accepted invitation: accepting the
pending one leaves no rejected invitation and keeps the accepted one, deleting the trip
keeps the accepted one, and each invitation stored after the acceptance is accounted
for. -/
theorem invitation_status_monotone_witness :
    NoRejected (serve noFaults sampleEnv (.accept sampleInvitationId) busyStore).store ∧
    acceptedInvitation ∈
      (serve noFaults sampleEnv (.deleteTrip sampleTripId) busyStore).store.members ∧
    (∀ m1 ∈ (serve noFaults sampleEnv (.accept sampleInvitationId) busyStore).store.members,
      m1 ∈ busyStore.members ∨
      (m1.status = .accepted ∧ ∃ m ∈ busyStore.members, m1 = { m with status := .accepted }) ∨
      (m1.status = .pending ∧
        (serve noFaults sampleEnv (.accept sampleInvitationId) busyStore).store.members =
          busyStore.members ++ [m1])) ∧
    (TripMember.create sampleEnv thirdInput busyStore =
        .ok (thirdInvitation, { busyStore with members := busyStore.members ++
          [thirdInvitation] }) ∧
      thirdInvitation.status = .pending) :=
  have hn : NoRejected busyStore := by
    simp [NoRejected, busyStore, sampleInvitation, acceptedInvitation]
  ⟨invitation_status_monotone.2.2.1 noFaults sampleEnv (.accept sampleInvitationId)
      busyStore hn,
    invitation_status_monotone.2.2.2.1 noFaults sampleEnv (.deleteTrip sampleTripId) busyStore
      acceptedInvitation (by decide) rfl,
    invitation_status_monotone.2.2.2.2.1 noFaults sampleEnv (.accept sampleInvitationId)
      busyStore,
    ⟨by rfl, invitation_status_monotone.2.2.2.2.2 sampleEnv thirdInput busyStore
      { busyStore with members := busyStore.members ++ [thirdInvitation] } thirdInvitation rfl
      (by rfl)⟩⟩

/-- Claim C8: for every handler, request and store, and whichever store calls throw,
requests with a missing body or with missing or ill-typed fields (scalars, arrays or
objects) included, the handler sends exactly one response and lets no exception escape;
a response with status 400, 401, 404 or 500 has a JSON object body whose only key is
`error`, with a string value, and a 500 is the answer of the `catch` block of the
route. -/
theorem handlers_answer_once (f : Faults) (env : Env) (req : Request) (s : Store) :
    (serve f env req s).escaped = none ∧
    ∃ r, (serve f env req s).sent = [r] ∧
      (r.status ∈ [400, 401, 404, 500] →
        r.body.keys = some ["error"] ∧ ∃ msg, r.body = .error msg) ∧
      (r.status = 500 → ∃ msg, catchMessage req = some msg ∧ r.body = .error msg) := by
  obtain ⟨h1, r, h2, h3⟩ := serve_answers_once f env req s
  exact ⟨h1, r, h2, h3⟩

/-- Witness of C8: a listing of trips whose store call fails, and an invite whose email
is an array; both are answered 500 by the `catch` block, once, with the store kept. -/
theorem handlers_answer_once_witness :
    ((serve listingDown sampleEnv .listTrips busyStore).escaped = none ∧
      ∃ r, (serve listingDown sampleEnv .listTrips busyStore).sent = [r] ∧
        (r.status ∈ [400, 401, 404, 500] →
          r.body.keys = some ["error"] ∧ ∃ msg, r.body = .error msg) ∧
        (r.status = 500 →
          ∃ msg, catchMessage .listTrips = some msg ∧ r.body = .error msg)) ∧
    serve listingDown sampleEnv .listTrips busyStore =
      ⟨busyStore, [⟨500, .error "Failed to fetch trips."⟩], none⟩ ∧
    serve noFaults sampleEnv (.invite sampleTripId
        (some ⟨.arr [.str "a@example.com", .str "b@example.com"], .obj []⟩)) busyStore =
      ⟨busyStore, [⟨500, .error "Failed to send invitation."⟩], none⟩ :=
  ⟨handlers_answer_once listingDown sampleEnv .listTrips busyStore, by decide, by decide⟩

/-- Claim C4: for a well-formed identifier, when no trip has it the delete route answers
404 `Trip not found.` and leaves the store as it was; when a trip has it the route answers
200 with a message containing the title of that trip, and the next listing holds no trip
with the identifier and still holds every other trip, unchanged. -/
theorem deleteTrip_contract (env : Env) (s : Store) (raw : String) (id : ObjectId)
    (hid : castObjectId raw = some id) :
    ((∀ t ∈ s.trips, t._id ≠ id) →
        handle env (.deleteTrip raw) s = ⟨s, [⟨404, .error "Trip not found."⟩], none⟩) ∧
    ((∃ t ∈ s.trips, t._id = id) →
        ∃ t ∈ s.trips, t._id = id ∧
          (handle env (.deleteTrip raw) s).sent =
            [⟨200, .message ("Trip \x27" ++ t.title ++ "\x27 was deleted successfully.")⟩] ∧
          (handle env (.deleteTrip raw) s).escaped = none ∧
          ∃ ts, (handle env .listTrips (handle env (.deleteTrip raw) s).store).sent =
              [⟨200, .trips ts⟩] ∧
            ts = s.trips.filter (fun x => x._id != id) ∧
            (∀ x ∈ ts, x._id ≠ id) ∧
            (∀ x ∈ s.trips, x._id ≠ id → x ∈ ts)) := by
  constructor
  · intro h
    have hn : s.trips.find? (fun t => t._id == id) = none := by
      apply find_none_of_forall; intro x hx; simpa using h x hx
    simp [handle, serve, attempt, noFaults, route, run, deleteTrip, tryCatch, bind, Handler.bind, writeStore,
      Trip.findByIdAndDelete, hid, hn, send]
  · rintro ⟨t0, ht0, hid0⟩
    obtain ⟨t, hf⟩ := find_some_of_exists (fun t : Trip => t._id == id) s.trips
      ⟨t0, ht0, by simp [hid0]⟩
    have hmem := List.mem_of_find?_eq_some hf
    have hp := List.find?_some hf
    refine ⟨t, hmem, by simpa using hp, ?_⟩
    simp [handle, serve, attempt, noFaults, route, run, deleteTrip, listTrips, tryCatch, bind, Handler.bind, writeStore,
      readStore, Trip.find, Trip.findByIdAndDelete, hid, hf, send]
    intro x hx hne; exact ⟨hx, hne⟩

/-- Witness of C4: an unknown identifier on the sample store, then the sample trip. -/
theorem deleteTrip_contract_witness :
    handle sampleEnv (.deleteTrip unknownId) sampleStore =
      ⟨sampleStore, [⟨404, .error "Trip not found."⟩], none⟩ ∧
    ∃ t ∈ sampleStore.trips, t._id = 1 ∧
      (handle sampleEnv (.deleteTrip sampleTripId) sampleStore).sent =
        [⟨200, .message ("Trip \x27" ++ t.title ++ "\x27 was deleted successfully.")⟩] ∧
      (handle sampleEnv (.deleteTrip sampleTripId) sampleStore).escaped = none ∧
      ∃ ts, (handle sampleEnv .listTrips
            (handle sampleEnv (.deleteTrip sampleTripId) sampleStore).store).sent =
          [⟨200, .trips ts⟩] ∧
        ts = sampleStore.trips.filter (fun x => x._id != 1) ∧
        (∀ x ∈ ts, x._id ≠ 1) ∧
        (∀ x ∈ sampleStore.trips, x._id ≠ 1 → x ∈ ts) :=
  ⟨(deleteTrip_contract sampleEnv sampleStore unknownId 255 (by decide)).1 (by decide),
    (deleteTrip_contract sampleEnv sampleStore sampleTripId 1 (by decide)).2
      ⟨sampleTrip, by decide, rfl⟩⟩

/-- Claim C3, as stated, fails: on a request whose trip identifier resolves to no trip and
whose date cannot be parsed, the cast of the update throws before the store is asked and
the route answers 500 `Failed to add activity.`, not 404. -/
theorem addActivity_unknown_trip_bad_date :
    castObjectId unknownId = some 255 ∧
    busyStore.trips.find? (fun t => t._id == 255) = none ∧
    sampleEnv.parseDate "garbage" = none ∧
    handle sampleEnv (.addActivity unknownId
        (some ⟨.str "Visit Shrine", .str "garbage", .undefined, .undefined, .undefined⟩))
        busyStore =
      ⟨busyStore, [⟨500, .error "Failed to add activity."⟩], none⟩ := by
  decide

/-- Claim C3, amended: for a well-formed trip identifier, when it resolves to no trip and
the body can be cast to the activity schema, the activity route answers 404
`Trip not found.` and leaves the store as it was; when it resolves to a trip with n
activities and the body has a string title, a parseable date and optional string time,
description and type, the route answers 201 with a trip that has n + 1 activities, the
first n being the former ones in order and the last one carrying the input fields, with
type `activity` when it was omitted. -/
theorem addActivity_contract (env : Env) (s : Store) (raw : String) (id : ObjectId)
    (hid : castObjectId raw = some id) :
    (∀ (body : ActivityBody) (a : Activity), castActivity env body = .ok a →
        s.trips.find? (fun t => t._id == id) = none →
        handle env (.addActivity raw (some body)) s =
          ⟨s, [⟨404, .error "Trip not found."⟩], none⟩) ∧
    (∀ (t : Trip) (title date : String) (d : Int) (time description type : Option String),
        s.trips.find? (fun t => t._id == id) = some t →
        date ≠ "" → env.parseDate date = some d →
        ∃ t1 : Trip,
          (handle env (.addActivity raw (some ⟨.str title, .str date, JsVal.ofOption time,
              JsVal.ofOption description, JsVal.ofOption type⟩)) s).sent = [⟨201, .trip t1⟩] ∧
          (handle env (.addActivity raw (some ⟨.str title, .str date, JsVal.ofOption time,
              JsVal.ofOption description, JsVal.ofOption type⟩)) s).escaped = none ∧
          t1._id = t._id ∧
          t1.activities.length = t.activities.length + 1 ∧
          t1.activities.take t.activities.length = t.activities ∧
          t1.activities.getLast? =
            some ⟨some title, some d, time, description, some (type.getD "activity")⟩) := by
  constructor
  · intro body a hc hn
    simp [handle, serve, attempt, noFaults, route, run, addActivity, tryCatch, bind,
      Handler.bind, writeStore, liftExcept, destructure, Trip.findByIdAndPush, hid, hc, hn,
      send]
  · intro t title date d time description type hf hne hp
    refine ⟨{ t with activities := t.activities ++ [⟨some title, some d, time, description,
      some (type.getD "activity")⟩] }, ?_, ?_, rfl, by simp, by simp, by simp⟩
    · cases type <;> cases time <;> cases description <;>
      simp [handle, serve, attempt, noFaults, route, run, addActivity, tryCatch, bind,
        Handler.bind, writeStore, liftExcept, destructure, Trip.findByIdAndPush, hid, hf, send,
        castActivity, castDate, hne, hp, JsVal.ofOption, castString]
    · cases type <;> cases time <;> cases description <;>
      simp [handle, serve, attempt, noFaults, route, run, addActivity, tryCatch, bind,
        Handler.bind, writeStore, liftExcept, destructure, Trip.findByIdAndPush, hid, hf, send,
        castActivity, castDate, hne, hp, JsVal.ofOption, castString]

/-- Witness of the amended C3: an unknown trip with a body that casts, then an activity
without type on a trip that has two activities. -/
theorem addActivity_contract_witness :
    handle sampleEnv (.addActivity unknownId
        (some ⟨.str "Visit Shrine", .str "2025-04-02", .undefined, .undefined, .undefined⟩))
        busyStore = ⟨busyStore, [⟨404, .error "Trip not found."⟩], none⟩ ∧
    ∃ t1 : Trip,
      (handle sampleEnv (.addActivity plannedTripId (some ⟨.str "Visit Shrine",
          .str "2025-04-02", JsVal.ofOption (some "10:00"), JsVal.ofOption none,
          JsVal.ofOption none⟩)) busyStore).sent = [⟨201, .trip t1⟩] ∧
      (handle sampleEnv (.addActivity plannedTripId (some ⟨.str "Visit Shrine",
          .str "2025-04-02", JsVal.ofOption (some "10:00"), JsVal.ofOption none,
          JsVal.ofOption none⟩)) busyStore).escaped = none ∧
      t1._id = plannedTrip._id ∧
      t1.activities.length = plannedTrip.activities.length + 1 ∧
      t1.activities.take plannedTrip.activities.length = plannedTrip.activities ∧
      t1.activities.getLast? =
        some ⟨some "Visit Shrine", some 1743552000000, some "10:00", none,
          some ((none : Option String).getD "activity")⟩ :=
  ⟨(addActivity_contract sampleEnv busyStore unknownId 255 (by decide)).1 _
      ⟨some "Visit Shrine", some 1743552000000, none, none, some "activity"⟩ (by rfl)
      (by decide),
    (addActivity_contract sampleEnv busyStore plannedTripId 3 (by decide)).2 plannedTrip
      "Visit Shrine" "2025-04-02" 1743552000000 (some "10:00") none none (by decide)
      (by decide) (by decide)⟩

/-- Claim C5: two login requests on the same store, one whose email matches no user and
one whose email matches a user but whose password fails verification, have the same
outcome: the response 401 with the body `error: Invalid email or password`, and an
untouched store. -/
theorem login_failure_uniform (env : Env) (s : Store) (b1 b2 : LoginBody) (u : User)
    (h1 : User.findOne env b1.email s = .ok none)
    (h2 : User.findOne env b2.email s = .ok (some u))
    (hpw : User.correctPassword env b2.password u.password = .ok false) :
    handle env (.login (some b1)) s = handle env (.login (some b2)) s ∧
    handle env (.login (some b1)) s =
      ⟨s, [⟨401, .error "Invalid email or password"⟩], none⟩ := by
  constructor <;>
  simp [handle, serve, attempt, noFaults, route, run, login, tryCatch, bind, Handler.bind, readStore, liftExcept,
    destructure, h1, h2, hpw, send]

/-- Witness of C5: an unregistered email against the registered one with a wrong password. -/
theorem login_failure_uniform_witness :
    handle sampleEnv (.login (some ⟨.str "bob@example.com", .str "pw"⟩)) sampleStore =
      handle sampleEnv (.login (some ⟨.str "ann@example.com", .str "wrong"⟩)) sampleStore ∧
    handle sampleEnv (.login (some ⟨.str "bob@example.com", .str "pw"⟩)) sampleStore =
      ⟨sampleStore, [⟨401, .error "Invalid email or password"⟩], none⟩ :=
  login_failure_uniform sampleEnv sampleStore ⟨.str "bob@example.com", .str "pw"⟩
    ⟨.str "ann@example.com", .str "wrong"⟩ sampleUser (by rfl) (by rfl) (by rfl)

/-- Claim C2: for a well-formed invitation identifier that resolves to a pending
invitation whose trip exists, the accept route answers 200 and leaves the invitation
accepted, and a following listing of pending invitations for an email whose lower case
form is the invited email answers with a list that does not contain it; when the
identifier resolves to no invitation the route answers 404 `Invitation not found.` and
leaves the store as it was. -/
theorem acceptInvitation_contract (env : Env) (s : Store) (raw : String) (id : ObjectId)
    (hid : castObjectId raw = some id) :
    (∀ (i : TripMember) (email : JsVal),
        s.members.find? (fun m => m._id == id) = some i →
        i.status = .pending →
        (∃ t ∈ s.trips, t._id = i.tripId) →
        i.invitedEmail ≠ "" → toLowerCase env email = .ok i.invitedEmail →
        (∃ body, (handle env (.accept raw) s).sent = [⟨200, body⟩]) ∧
        (handle env (.accept raw) s).escaped = none ∧
        ({ i with status := .accepted } : TripMember) ∈
          (handle env (.accept raw) s).store.members ∧
        (∀ j ∈ (handle env (.accept raw) s).store.members, j._id = id →
          j.status = .accepted) ∧
        ∃ l, (handle env (.listInvitations email) (handle env (.accept raw) s).store).sent =
            [⟨200, .invitations l⟩] ∧
          ∀ p ∈ l, p._id ≠ id) ∧
    (s.members.find? (fun m => m._id == id) = none →
        handle env (.accept raw) s = ⟨s, [⟨404, .error "Invitation not found."⟩], none⟩) := by
  constructor
  · intro i email hf _ ⟨t0, ht0, hid0⟩ hne hlow
    have himem := List.mem_of_find?_eq_some hf
    have hiid : i._id = id := by simpa using List.find?_some hf
    obtain ⟨t, hft⟩ := find_some_of_exists (fun t : Trip => t._id == i.tripId) s.trips
      ⟨t0, ht0, by simp [hid0]⟩
    have hstore : (handle env (.accept raw) s).store =
        { s with members := s.members.map (fun x =>
          if x._id = id then { x with status := .accepted } else x) } := by
      simp [handle, serve, attempt, noFaults, route, run, acceptInvitation, tryCatch, bind, Handler.bind, writeStore,
        TripMember.findByIdAndSetStatus, hid, hf, send, populate, hft]
    refine ⟨?_, ?_, ?_, ?_, ?_⟩
    · simp [handle, serve, attempt, noFaults, route, run, acceptInvitation, tryCatch, bind, Handler.bind, writeStore,
        TripMember.findByIdAndSetStatus, hid, hf, send, populate, hft]
    · simp [handle, serve, attempt, noFaults, route, run, acceptInvitation, tryCatch, bind, Handler.bind, writeStore,
        TripMember.findByIdAndSetStatus, hid, hf, send, populate, hft]
    · rw [hstore]
      refine List.mem_map.mpr ⟨i, himem, ?_⟩
      simp [hiid]
    · rw [hstore]
      exact map_setStatus_mem s.members id .accepted
    · rw [hstore]
      have htruthy : email.truthy = true := toLowerCase_truthy hlow hne
      refine ⟨((s.members.map (fun x =>
          if x._id = id then { x with status := .accepted } else x)).filter
            (fun m => m.invitedEmail == i.invitedEmail && m.status == .pending)).map
          (populate { s with members := s.members.map (fun x =>
            if x._id = id then { x with status := .accepted } else x) } true), ?_, ?_⟩
      · simp [handle, serve, attempt, noFaults, route, run, listInvitations, tryCatch, htruthy, bind, Handler.bind,
          liftExcept, hlow, readStore, TripMember.findPending, send]
      · intro p hp
        rcases List.mem_map.mp hp with ⟨m, hm, rfl⟩
        have hm2 := List.mem_filter.mp hm
        intro hpid
        have hacc := map_setStatus_mem s.members id .accepted m hm2.1
          (by simpa [populate] using hpid)
        have := hm2.2
        simp [hacc] at this
  · intro hn
    simp [handle, serve, attempt, noFaults, route, run, acceptInvitation, tryCatch, bind, Handler.bind, writeStore,
      TripMember.findByIdAndSetStatus, hid, hn, send]

/-- Witness of C2: the sample invitation is accepted and no longer listed for its email,
and an unknown identifier is answered 404. -/
theorem acceptInvitation_contract_witness :
    ((∃ body, (handle sampleEnv (.accept sampleInvitationId) sampleStore).sent =
        [⟨200, body⟩]) ∧
      (handle sampleEnv (.accept sampleInvitationId) sampleStore).escaped = none ∧
      ({ sampleInvitation with status := .accepted } : TripMember) ∈
        (handle sampleEnv (.accept sampleInvitationId) sampleStore).store.members ∧
      (∀ j ∈ (handle sampleEnv (.accept sampleInvitationId) sampleStore).store.members,
        j._id = 5 → j.status = .accepted) ∧
      ∃ l, (handle sampleEnv (.listInvitations (.str "Friend@Example.com"))
            (handle sampleEnv (.accept sampleInvitationId) sampleStore).store).sent =
          [⟨200, .invitations l⟩] ∧
        ∀ p ∈ l, p._id ≠ 5) ∧
    handle sampleEnv (.accept unknownId) sampleStore =
      ⟨sampleStore, [⟨404, .error "Invitation not found."⟩], none⟩ :=
  ⟨(acceptInvitation_contract sampleEnv sampleStore sampleInvitationId 5 (by decide)).1
      sampleInvitation (.str "Friend@Example.com") (by decide) rfl
      ⟨sampleTrip, by decide, rfl⟩ (by decide) (by rfl),
    (acceptInvitation_contract sampleEnv sampleStore unknownId 255 (by decide)).2
      (by decide)⟩

/-- Claim C9, as stated, fails: a payload with all four fields present and parseable dates
but an empty title, or an empty destination, is rejected by the required validator of
the schema, and the route answers 500 and stores nothing. -/
theorem createTrip_empty_title_rejected :
    sampleEnv.parseDate "2025-04-01" = some 1743465600000 ∧
    sampleEnv.parseDate "2025-04-10" = some 1744243200000 ∧
    handle sampleEnv (.createTrip (some ⟨.str "", .str "Tokyo", .str "2025-04-01",
        .str "2025-04-10"⟩)) Store.empty =
      ⟨Store.empty, [⟨500, .error "Failed to create trip."⟩], none⟩ ∧
    handle sampleEnv (.createTrip (some ⟨.str "Japan Trip", .str "", .str "2025-04-01",
        .str "2025-04-10"⟩)) Store.empty =
      ⟨Store.empty, [⟨500, .error "Failed to create trip."⟩], none⟩ := by
  decide

/-- Claim C9, amended: for every store and every payload whose title and destination are
non-empty strings and whose start and end dates are parseable date strings, the create
route answers 201 with a trip that has a generated identifier no stored trip has, the
four input fields and no activities, and the next listing returns the former trips
followed by that trip, which appears exactly once. -/
theorem createTrip_then_listTrips (env : Env) (s : Store)
    (title destination startDate endDate : String) (d1 d2 : Int)
    (ht : title ≠ "") (hd : destination ≠ "")
    (hs : startDate ≠ "") (he : endDate ≠ "")
    (hp1 : env.parseDate startDate = some d1) (hp2 : env.parseDate endDate = some d2) :
    ∃ t : Trip,
      handle env (.createTrip (some ⟨.str title, .str destination, .str startDate,
          .str endDate⟩)) s =
        ⟨{ s with trips := s.trips ++ [t] }, [⟨201, .trip t⟩], none⟩ ∧
      (∀ x ∈ s.trips, x._id ≠ t._id) ∧
      t.title = title ∧ t.destination = destination ∧ t.startDate = d1 ∧ t.endDate = d2 ∧
      t.activities = [] ∧
      ∃ ts, (handle env .listTrips { s with trips := s.trips ++ [t] }).sent =
          [⟨200, .trips ts⟩] ∧
        ts = s.trips ++ [t] ∧
        ts.filter (fun x => x._id == t._id) = [t] ∧
        ts.count t = 1 ∧
        (∀ x ∈ s.trips, x ∈ ts) := by
  have hfresh : ∀ x ∈ s.trips, x._id ≠ freshId (s.trips.map (fun x => x._id)) := by
    intro x hx
    exact Nat.ne_of_lt (lt_freshId (s.trips.map (fun x => x._id)) x._id
      (List.mem_map_of_mem _ hx))
  have hfilter :
      s.trips.filter (fun x => x._id == freshId (s.trips.map (fun x => x._id))) = [] := by
    simp [List.filter_eq_nil_iff]; intro x hx; exact hfresh x hx
  refine ⟨⟨freshId (s.trips.map (fun x => x._id)), title, destination, d1, d2, []⟩, ?_, hfresh,
    rfl, rfl, rfl, rfl, rfl, ?_⟩
  · simp [handle, serve, attempt, noFaults, route, run, createTrip, tryCatch, bind, Handler.bind, writeStore, liftExcept,
      destructure, Trip.create, requiredString, castString, requiredDate, castDate, ht, hd, hs,
      he, hp1, hp2, send]
  · refine ⟨s.trips ++ [⟨freshId (s.trips.map (fun x => x._id)), title, destination, d1, d2,
      []⟩], ?_, rfl, ?_, ?_, ?_⟩
    · simp [handle, serve, attempt, noFaults, route, run, listTrips, tryCatch, bind, Handler.bind, readStore, Trip.find,
        send]
    · simp [List.filter_append, hfilter]
    · rw [List.count_append]
      have : List.count (⟨freshId (s.trips.map (fun x => x._id)), title, destination, d1, d2,
          []⟩ : Trip) s.trips = 0 := by
        apply List.count_eq_zero_of_not_mem
        intro hmem
        exact hfresh _ hmem rfl
      simp [this]
    · intro x hx; simp [hx]

/-- Witness of the amended C9: a second trip created on the sample store. -/
theorem createTrip_then_listTrips_witness :
    ∃ t : Trip,
      handle sampleEnv (.createTrip (some ⟨.str "Kyoto Trip", .str "Kyoto", .str "2025-04-02",
          .str "2025-04-10"⟩)) sampleStore =
        ⟨{ sampleStore with trips := sampleStore.trips ++ [t] }, [⟨201, .trip t⟩], none⟩ ∧
      (∀ x ∈ sampleStore.trips, x._id ≠ t._id) ∧
      t.title = "Kyoto Trip" ∧ t.destination = "Kyoto" ∧ t.startDate = 1743552000000 ∧
      t.endDate = 1744243200000 ∧ t.activities = [] ∧
      ∃ ts, (handle sampleEnv .listTrips
            { sampleStore with trips := sampleStore.trips ++ [t] }).sent =
          [⟨200, .trips ts⟩] ∧
        ts = sampleStore.trips ++ [t] ∧
        ts.filter (fun x => x._id == t._id) = [t] ∧
        ts.count t = 1 ∧
        (∀ x ∈ sampleStore.trips, x ∈ ts) :=
  createTrip_then_listTrips sampleEnv sampleStore "Kyoto Trip" "Kyoto" "2025-04-02"
    "2025-04-10" 1743552000000 1744243200000 (by decide) (by decide) (by decide) (by decide)
    (by decide) (by decide)

/-- Claim C1 fails on the code: on a store with the trip and no invitation for the email,
the first invite request is answered 500 `Failed to send invitation.`, not 201, and no
invitation is stored, because the document built by the handler has no `userId`, which
the schema requires. -/
theorem inviteMember_first_invite_fails :
    tripOnlyStore.trips = [sampleTrip] ∧ tripOnlyStore.members = [] ∧
    handle sampleEnv (.invite sampleTripId (some ⟨.str "Friend@Example.com", .undefined⟩))
        tripOnlyStore =
      ⟨tripOnlyStore, [⟨500, .error "Failed to send invitation."⟩], none⟩ := by
  decide

/-- Claim C10 fails on the code: after the trip of a pending invitation is deleted, the
accept route answers 500 `Failed to accept invitation.` and yet the stored invitation
has become accepted. -/
theorem acceptInvitation_not_atomic :
    (handle sampleEnv (.deleteTrip sampleTripId) sampleStore).store =
      ⟨[], [sampleUser], [sampleInvitation]⟩ ∧
    handle sampleEnv (.accept sampleInvitationId) ⟨[], [sampleUser], [sampleInvitation]⟩ =
      ⟨⟨[], [sampleUser], [{ sampleInvitation with status := .accepted }]⟩,
        [⟨500, .error "Failed to accept invitation."⟩], none⟩ := by
  decide


end TravelPlanner
